import Mathlib

/-!
Verification of the composite-repository index engine and the retention
policy engine of the s3-tools repository, against a shallow embedding of
`src/s3tools/P2CompositeUtils.py` and `src/s3tools/ManageSnapshots.py`.

The embedding models a parsed composite XML document by the data the code
actually reads and writes: the repository name, the list of values of the
`p2.timestamp` properties, the ordered list of `child` entries (each child
is the value of its `location` attribute, `none` when the attribute is
missing), and the string stored in the `size` attribute of the `children`
element.  The object store and the regex engine are external collaborators
and appear as function parameters.
-/

namespace S3Tools

/-- A composite document as the Python code observes it through
`xml.etree.ElementTree`: `tsProps` lists the `value` attributes of the
`p2.timestamp` properties (a document missing the property has `[]`,
`get_timestamp_property` materialises one on demand); `children` lists the
`location` attributes of the `child` entries in document order, `none`
standing for a child element with no `location` attribute; `childrenSize`
is the literal string held by the `size` attribute of the `children`
element.  A document lacking the `children` element altogether is
represented with `children = []`, `childrenSize = "0"`, which is what
`get_children_element` creates on first access. -/
structure Doc where
  name : String
  tsProps : List (Option String)
  children : List (Option String)
  childrenSize : String
deriving DecidableEq

/-- The parsed form of `EMPTY_COMPOSITE_ARTIFACTS_XML`
(P2CompositeUtils.py lines 64-74): name `Eclipse Project Test Site`, one
`p2.timestamp` property with value `0000000000000`, no children. -/
def emptyCompositeArtifacts : Doc :=
  { name := "Eclipse Project Test Site"
  , tsProps := [some "0000000000000"]
  , children := []
  , childrenSize := "0" }

/-- The parsed form of `EMPTY_COMPOSITE_CONTENT_XML`
(P2CompositeUtils.py lines 76-86); same shape as the artifacts bootstrap. -/
def emptyCompositeContent : Doc :=
  { name := "Eclipse Project Test Site"
  , tsProps := [some "0000000000000"]
  , children := []
  , childrenSize := "0" }

/-- Embedding of `get_timestamp_property` (lines 126-134): returns the existing
`p2.timestamp` properties, creating one with value `0000000000000` when the
document has none.  This is the list it returns (and leaves in the
document). -/
def ensureTsProps (l : List (Option String)) : List (Option String) :=
  if l.isEmpty then [some "0000000000000"] else l

/-- The value `update_timestamp` stamps: `str(int(round(time.time()*1000)))
if timestamp is None else timestamp` (line 137), with the wall clock
pre-rendered as the string `now`. -/
def tsValOf (ts : Option String) (now : String) : String :=
  match ts with
  | none => now
  | some t => t

/-- Embedding of `update_timestamp` (lines 136-139): when `ts` is `none` the current
wall-clock string `now` is used; every `p2.timestamp` property returned by
`get_timestamp_property` gets its `value` attribute set to that string. -/
def update_timestamp (d : Doc) (ts : Option String) (now : String) : Doc :=
  { d with tsProps := (ensureTsProps d.tsProps).map (fun _ => some (tsValOf ts now)) }

/-- Embedding of `add_child` (lines 144-147): append a `child` element carrying the given
`location` attribute value and reset the `size` attribute to the decimal
string of the new child count.  The `location` argument is `Option String`
because `synch_compostite_artifacts_to_composite_content` passes
the value `child.get` yields for the location attribute, which may be `None`. -/
def add_child (d : Doc) (loc : Option String) : Doc :=
  let cs := d.children ++ [loc]
  { d with children := cs, childrenSize := toString cs.length }

/-- The semantics of a Python `for child_element in children:` loop that
calls `children.remove(child_element)` on matches.  ElementTree iteration
is index based, so removing the element at the cursor shifts the next
element into its slot and the loop then skips that element without
examining it.  The Boolean flag records whether the previous step removed
an element (in which case the current head is the skipped element and is
kept unexamined). -/
def pyRemoveGo (p : Option String → Bool) : List (Option String) → Bool → List (Option String)
  | [], _ => []
  | a :: rest, true => a :: pyRemoveGo p rest false
  | a :: rest, false =>
    if p a then pyRemoveGo p rest true else a :: pyRemoveGo p rest false

/-- Entry point of the remove-while-iterating loop: the cursor starts with
no pending skip. -/
def pyRemoveIter (p : Option String → Bool) (l : List (Option String)) : List (Option String) :=
  pyRemoveGo p l false

/-- Embedding of `remove_child` (lines 149-155): remove every child whose `location` is
missing or equals the target — via the skipping loop above — then reset the
`size` attribute.  (This helper is not called by the persisted
`remove_child_from_composite_artifacts` path, which re-implements the loop
without the missing-location test.) -/
def remove_child (d : Doc) (loc : String) : Doc :=
  let cs := pyRemoveIter (fun c => c.isNone || c == some loc) d.children
  { d with children := cs, childrenSize := toString cs.length }

/-- Embedding of `get_child_locations` (lines 141-142): the `location` values of the
children that have one. -/
def get_child_locations (d : Doc) : List String :=
  d.children.filterMap id

/-- Embedding of `synch_compostite_artifacts_to_composite_content` (lines 163-179),
restricted to the document it builds and persists: starting from the parsed
`EMPTY_COMPOSITE_CONTENT_XML`, `add_child` is called with
the location attribute value of every child of the artifacts document, then
`update_timestamp` is called with the `value` of every `p2.timestamp`
property of the artifacts document (`now` models the wall clock used when
such a value is absent). -/
def synch_compostite_artifacts_to_composite_content (a : Doc) (now : String) : Doc :=
  let c0 := a.children.foldl (fun c loc => add_child c loc) emptyCompositeContent
  (ensureTsProps a.tsProps).foldl (fun c p => update_timestamp c p now) c0

/-- A `botocore` `ClientError` as `get_composite_artifacts_xml` inspects it:
only the `HTTPStatusCode` field inside the `ResponseMetadata` of the error
response is consulted, and
`none` models a response missing that field. -/
structure ClientErr where
  httpStatusCode : Option Nat
deriving DecidableEq

/-- Embedding of `get_composite_artifacts_xml` (lines 181-202).  The argument is the
outcome of downloading and parsing the object at the well-known
`compositeArtifacts.xml` key: `Except.ok d` when the object exists and
parses to `d`, `Except.error e` when `download_fileobj` raised
`ClientError e`.  A 404 status substitutes the parsed
`EMPTY_COMPOSITE_ARTIFACTS_XML`; every other error is re-raised. -/
def get_composite_artifacts_xml (dl : Except ClientErr Doc) : Except ClientErr Doc :=
  match dl with
  | Except.ok d => Except.ok d
  | Except.error e =>
    if e.httpStatusCode = some 404 then Except.ok emptyCompositeArtifacts
    else Except.error e

/-- Embedding of `add_child_to_composite_artifacts` (lines 234-244) on the loaded
artifacts document `a`: `add_child`, a second redundant `size` update, the
timestamp stamp, then the pair (persisted artifacts document, persisted
content document derived by the synch). -/
def add_child_to_composite_artifacts (a : Doc) (loc : String) (ts : Option String)
    (now : String) : Doc × Doc :=
  let r1 := add_child a (some loc)
  let r2 := { r1 with childrenSize := toString r1.children.length }
  let r3 := update_timestamp r2 ts now
  (r3, synch_compostite_artifacts_to_composite_content r3 now)

/-- Embedding of `remove_child_from_composite_artifacts` (lines 246-259) on the
loaded artifacts document `a`.  The loop at lines 252-255 iterates the live
`children` element and removes only entries whose `location` is present and
equal to the target (`location is not None and location == child_location`),
with the index-skipping semantics of `pyRemoveIter`. -/
def remove_child_from_composite_artifacts (a : Doc) (loc : String) (ts : Option String)
    (now : String) : Doc × Doc :=
  let cs := pyRemoveIter (fun c => c == some loc) a.children
  let r1 := { a with children := cs, childrenSize := toString cs.length }
  let r2 := update_timestamp r1 ts now
  (r2, synch_compostite_artifacts_to_composite_content r2 now)

/-- The characters that the CPython module `urllib.parse` accepts inside a URL scheme
(`scheme_chars`): ASCII letters, digits, `+`, `-` and `.`. -/
def schemeChar (c : Char) : Bool :=
  c.isAlpha || c.isDigit || c == '+' || c == '-' || c == '.'

/-- Characters that terminate the network-location component in
`urllib.parse._splitnetloc`: `/`, `?` and `#`. -/
def netlocChar (c : Char) : Bool :=
  c != '/' && c != '?' && c != '#'

/-- Split a character list at the first occurrence of `c`: Python
`s.split(c, 1)` guarded by `c in s` (the pair is `(s, [])` when `c` is
absent). -/
def splitOnFirst (c : Char) (l : List Char) : List Char × List Char :=
  match l.findIdx? (fun x => x == c) with
  | none => (l, [])
  | some i => (l.take i, l.drop (i + 1))

/-- Index of the last occurrence of `c` in `l`: Python `s.rfind(c)`. -/
def rlastIdx (c : Char) (l : List Char) : Option Nat :=
  ((l.enum.filter (fun p => p.2 == c)).getLast?).map (fun p => p.1)

/-- First occurrence of `c` in `l` at an index `≥ start`: Python
`s.find(c, start)`. -/
def findFromIdx (c : Char) (start : Nat) (l : List Char) : Option Nat :=
  match (l.drop start).findIdx? (fun x => x == c) with
  | none => none
  | some i => some (start + i)

/-- CPython `urllib.parse._splitparams`, called only when `;` occurs in the
path: split the last path segment at its first `;`. -/
def splitparams (l : List Char) : List Char × List Char :=
  if l.contains '/' then
    match rlastIdx '/' l with
    | some j =>
      match findFromIdx ';' j l with
      | none => (l, [])
      | some i => (l.take i, l.drop (i + 1))
    | none => (l, [])
  else
    match l.findIdx? (fun x => x == ';') with
    | none => (l, [])
    | some i => (l.take i, l.drop (i + 1))

/-- The schemes for which `urlparse` separates path parameters
(`urllib.parse.uses_params`). -/
def uses_params : List String :=
  ["", "ftp", "hdl", "prospero", "http", "imap", "https", "shttp", "rtsp",
   "rtspu", "sip", "sips", "mms", "sftp", "tel"]

/-- The components of a `urllib.parse.urlparse` result that
`is_location_url` reads. -/
structure ParseResult where
  scheme : String
  netloc : String
  path : String
  params : String
  query : String
  fragment : String
deriving DecidableEq

/-- Model of CPython `urllib.parse.urlparse` (the collaborator library
function called by `is_location_url`), following the stdlib algorithm: an
initial `:` preceded by one or more scheme characters yields the lowercased
scheme; a `//` introduces the netloc up to the first `/`, `?` or `#`; a
netloc with unbalanced square brackets raises `ValueError` (modelled as
`none`); the fragment is split at the first `#`, the query at the first
`?`; finally, for schemes using parameters, the last path segment is split
at its first `;`. -/
def urlparseModel (s : String) : Option ParseResult :=
  let url0 := s.toList
  let p1 : List Char × List Char :=
    match url0.findIdx? (fun x => x == ':') with
    | some i =>
      if 0 < i && (url0.take i).all schemeChar then
        ((url0.take i).map Char.toLower, url0.drop (i + 1))
      else ([], url0)
    | none => ([], url0)
  let scheme := p1.1
  let url1 := p1.2
  let p2 : List Char × List Char :=
    if url1.take 2 == ['/', '/'] then
      ((url1.drop 2).takeWhile netlocChar, (url1.drop 2).dropWhile netlocChar)
    else ([], url1)
  let netloc := p2.1
  let url2 := p2.2
  if (netloc.contains '[' && !netloc.contains ']')
      || (netloc.contains ']' && !netloc.contains '[') then none
  else
    let pf := splitOnFirst '#' url2
    let pq := splitOnFirst '?' pf.1
    let rawPath := pq.1
    let pp : List Char × List Char :=
      if uses_params.contains (String.mk scheme) && rawPath.contains ';' then
        splitparams rawPath
      else (rawPath, [])
    some { scheme := String.mk scheme
         , netloc := String.mk netloc
         , path := String.mk pp.1
         , params := String.mk pp.2
         , query := String.mk pq.2
         , fragment := String.mk pf.2 }

/-- Embedding of `is_location_url` (P2CompositeUtils.py lines 104-112): parse with
`urlparse` and require scheme `http` or `https`, a truthy (non-empty)
netloc and a truthy (non-empty) path; any parse exception yields `False`. -/
def is_location_url (x : String) : Bool :=
  match urlparseModel x with
  | none => false
  | some r =>
    ((r.scheme == "http") || (r.scheme == "https"))
      && (r.netloc != "") && (r.path != "")

/-- The child-classification loop of `manage_snapshots`
(ManageSnapshots.py lines 61-85) keeps a child of the loaded tree exactly
when it has a `location` attribute and either classifies as a URL (skipped
from management) or has at least one `p2.index` object under its prefix
(`probe` models `S3Utils.get_matching_s3_contents`, returning the
`LastModified` of the last matching key). -/
def keepChild (probe : String → Option Int) (c : Option String) : Bool :=
  match c with
  | none => false
  | some loc => is_location_url loc || (probe loc).isSome

/-- Python dict assignment `child_keys[ck] = clm`: update the value in
place when the key is present, otherwise append the pair. -/
def dictInsert (k : String) (v : Int) (l : List (String × Int)) : List (String × Int) :=
  if l.any (fun p => p.1 == k) then
    l.map (fun p => if p.1 == k then (k, v) else p)
  else l ++ [(k, v)]

/-- The `child_keys` dict built by the loop at lines 61-85: for every
well-formed, non-URL child whose probe finds a marker, record its
last-modified time. -/
def childKeysOf (children : List (Option String)) (probe : String → Option Int) :
    List (String × Int) :=
  children.foldl (fun acc c =>
    match c with
    | none => acc
    | some loc =>
      if is_location_url loc then acc
      else
        match probe loc with
        | some lm => dictInsert loc lm acc
        | none => acc) []

/-- The regex narrowing at lines 87-89: `filt` models
`pattern.fullmatch(ck) is not None`; `none` models `child_regex is None`. -/
def filteredKeysOf (children : List (Option String)) (probe : String → Option Int)
    (filt : Option (String → Bool)) : List (String × Int) :=
  match filt with
  | none => childKeysOf children probe
  | some p => (childKeysOf children probe).filter (fun kv => p kv.1)

/-- Stable insertion for descending sort by last-modified: the new element
passes over strictly newer entries and stops in front of the first entry
that is not newer, so equal keys keep their original relative order. -/
def insertDesc (x : String × Int) : List (String × Int) → List (String × Int)
  | [] => [x]
  | y :: ys => if x.2 < y.2 then y :: insertDesc x ys else x :: y :: ys

/-- Model of `sorted(child_keys.items(), reverse=True, key=lambda x: x[1])`
(line 91): the stable descending sort by the second component.  The Python
builtin `sorted` with `reverse=True` is exactly the stable descending sort, and the
stable descending sort is unique, so insertion sort realises it. -/
def sortDesc (l : List (String × Int)) : List (String × Int) :=
  l.foldr insertDesc []

/-- Test `retain_minimum is not None and retained_count < retain_minimum`
(line 99). -/
def minRetainHit (minR : Option Nat) (cnt : Nat) : Bool :=
  match minR with
  | some m => decide (cnt < m)
  | none => false

/-- Test `retain_maximum is not None and retain_maximum <= retained_count`
(line 101). -/
def maxRetainHit (maxR : Option Nat) (cnt : Nat) : Bool :=
  match maxR with
  | some m => decide (m ≤ cnt)
  | none => false

/-- Embedding of the cutoff computation at line 96, with times as integers:
the Python source is `retain_after = None` when `retain_days is None`, else
`now - timedelta(days)`
(line 96), with times as integers. -/
def retainAfterOf (now : Int) (ageDays : Option Int) : Option Int :=
  match ageDays with
  | none => none
  | some d => some (now - d)

/-- The classification loop of `manage_snapshots` (lines 94-107), returning
`delete_keys`: retain (and count) while under the minimum; else delete once
the retained count has reached the maximum; else, when an age cutoff is
set, delete strictly-older children and retain (and count) the rest.  When
no age cutoff is set the child falls through the `elif` chain: it is not
deleted but the retained count is NOT incremented. -/
def classify (minR maxR : Option Nat) (ra : Option Int) :
    List (String × Int) → Nat → List (String × Int)
  | [], _ => []
  | k :: ks, cnt =>
    if minRetainHit minR cnt then classify minR maxR ra ks (cnt + 1)
    else if maxRetainHit maxR cnt then k :: classify minR maxR ra ks cnt
    else
      match ra with
      | some cutoff =>
        if k.2 < cutoff then k :: classify minR maxR ra ks cnt
        else classify minR maxR ra ks (cnt + 1)
      | none => classify minR maxR ra ks cnt

/-- The observable outcome of one `manage_snapshots` evaluation: the
children surviving in the in-memory tree, the filtered last-modified
mapping, and the computed `delete_keys`. -/
structure EvalResult where
  children1 : List (Option String)
  childKeys : List (String × Int)
  deleteKeys : List (String × Int)
deriving DecidableEq

/-- Embedding of `manage_snapshots` (ManageSnapshots.py lines 51-115) as a function of
the loaded children list and its collaborators: the existence probe, the
optional regex predicate, and the policy parameters (`minR`, `maxR`
optional counts; `ageDays` the optional age with `now` the current time).
The tree loop removes malformed and orphaned children and builds
`child_keys`; the regex narrows the dict; the result is classified over the
stable descending sort.  The deletion loop at lines 109-111 only prints —
the removal call is commented out. -/
def manage_snapshots (children : List (Option String)) (probe : String → Option Int)
    (filt : Option (String → Bool)) (minR maxR : Option Nat)
    (ageDays : Option Int) (now : Int) : EvalResult :=
  { children1 := children.filter (keepChild probe)
  , childKeys := filteredKeysOf children probe filt
  , deleteKeys :=
      classify minR maxR (retainAfterOf now ageDays)
        (sortDesc (filteredKeysOf children probe filt)) 0 }

/-- Retain/delete decision of a retention record (spec §3,
`RetentionRecord`). -/
inductive Decision where
  | retain : Decision
  | delete : Decision
deriving DecidableEq

/-- Modelled from the spec: the pseudocode of the claim for retention
classification (spec §4.3), in which the final `otherwise` branch always
retains AND increments the retained count, whether or not `maxAgeDays` is
set. -/
def evaluatePseudocode (minR : Nat) (maxR : Option Nat) (ra : Option Int) :
    List (String × Int) → Nat → List ((String × Int) × Decision)
  | [], _ => []
  | k :: ks, cnt =>
    if cnt < minR then (k, Decision.retain) :: evaluatePseudocode minR maxR ra ks (cnt + 1)
    else if maxRetainHit maxR cnt then
      (k, Decision.delete) :: evaluatePseudocode minR maxR ra ks cnt
    else
      match ra with
      | some cutoff =>
        if k.2 < cutoff then (k, Decision.delete) :: evaluatePseudocode minR maxR ra ks cnt
        else (k, Decision.retain) :: evaluatePseudocode minR maxR ra ks (cnt + 1)
      | none => (k, Decision.retain) :: evaluatePseudocode minR maxR ra ks (cnt + 1)

/-- The pseudocode of the claim amended to match the code: when `maxAgeDays` is
not set, a child past the floor and under the cap is retained but NOT
counted toward the cap. -/
def evaluateAmended (minR : Nat) (maxR : Option Nat) (ra : Option Int) :
    List (String × Int) → Nat → List ((String × Int) × Decision)
  | [], _ => []
  | k :: ks, cnt =>
    if cnt < minR then (k, Decision.retain) :: evaluateAmended minR maxR ra ks (cnt + 1)
    else if maxRetainHit maxR cnt then
      (k, Decision.delete) :: evaluateAmended minR maxR ra ks cnt
    else
      match ra with
      | some cutoff =>
        if k.2 < cutoff then (k, Decision.delete) :: evaluateAmended minR maxR ra ks cnt
        else (k, Decision.retain) :: evaluateAmended minR maxR ra ks (cnt + 1)
      | none => (k, Decision.retain) :: evaluateAmended minR maxR ra ks cnt

/-- The delete records of a classification, in order. -/
def deleteOf (l : List ((String × Int) × Decision)) : List (String × Int) :=
  l.filterMap (fun r => if r.2 = Decision.delete then some r.1 else none)

/-- One persisted mutation of the composite index: the arguments of
`add_child_to_composite_artifacts` or
`remove_child_from_composite_artifacts` beyond the loaded document. -/
inductive MutOp where
  | add (loc : String) (ts : Option String) (now : String) : MutOp
  | remove (loc : String) (ts : Option String) (now : String) : MutOp
deriving DecidableEq

/-- Apply one mutation to the loaded artifacts document, yielding the
persisted (artifacts, content) pair. -/
def applyMutOp (a : Doc) : MutOp → Doc × Doc
  | MutOp.add loc ts now => add_child_to_composite_artifacts a loc ts now
  | MutOp.remove loc ts now => remove_child_from_composite_artifacts a loc ts now

/-- Run a sequence of mutations; each operation reloads the artifacts
document persisted by the previous one (the store is the only state). -/
def runMutOps (a : Doc) (ops : List MutOp) : Doc :=
  ops.foldl (fun d op => (applyMutOp d op).1) a

/-- The serialized-size invariant: the `size` attribute of the `children`
element is the decimal string of the number of child entries. -/
def sizeOk (d : Doc) : Bool :=
  d.childrenSize == toString d.children.length

/-- Embedding of `posixpath.join` for the two-argument calls the code makes. -/
def urljoin (a b : String) : String :=
  if b.startsWith "/" then b
  else if a == "" then b
  else if a.endsWith "/" then a ++ b
  else a ++ "/" ++ b

/-- The object-store operations the tools perform, as observable events:
`download` and `listObjects` read, `upload` and `deleteTree` write. -/
inductive S3Event where
  | download (key : String) : S3Event
  | listObjects (pfx : String) : S3Event
  | upload (key : String) (d : Doc) : S3Event
  | deleteTree (pfx : String) : S3Event
deriving DecidableEq

/-- Whether an event mutates the object store. -/
def isWriteEvent : S3Event → Bool
  | S3Event.upload _ _ => true
  | S3Event.deleteTree _ => true
  | _ => false

/-- Object-store semantics of one event over the map from keys to stored
composite documents: reads leave the store unchanged, `upload` overwrites
one key, `deleteTree` drops every key under the prefix. -/
def applyEvent (σ : String → Option Doc) : S3Event → (String → Option Doc)
  | S3Event.download _ => σ
  | S3Event.listObjects _ => σ
  | S3Event.upload k d => fun k2 => if k2 = k then some d else σ k2
  | S3Event.deleteTree p => fun k2 => if p.isPrefixOf k2 then none else σ k2

/-- Fold of `applyEvent` over an event trace. -/
def applyEvents (σ : String → Option Doc) (es : List S3Event) : String → Option Doc :=
  es.foldl applyEvent σ

/-- The store interactions of `store_composite_artifacts_xml`
(P2CompositeUtils.py lines 204-217): one upload at the artifacts key. -/
def store_composite_artifacts_events (pfx : String) (d : Doc) : List S3Event :=
  [S3Event.upload (urljoin pfx "compositeArtifacts.xml") d]

/-- The store interactions of `store_composite_content_xml`
(lines 219-232): one upload at the content key. -/
def store_composite_content_events (pfx : String) (d : Doc) : List S3Event :=
  [S3Event.upload (urljoin pfx "compositeContent.xml") d]

/-- The store interactions of `remove_child_from_composite_artifacts`
(lines 246-259) on a loaded document `a`: download the artifacts object,
upload the mutated artifacts document, upload the derived content
document. -/
def remove_child_from_composite_artifacts_events (pfx : String) (a : Doc) (loc : String)
    (ts : Option String) (now : String) : List S3Event :=
  let pair := remove_child_from_composite_artifacts a loc ts now
  S3Event.download (urljoin pfx "compositeArtifacts.xml")
    :: store_composite_artifacts_events pfx pair.1
    ++ store_composite_content_events pfx pair.2

/-- The store interactions of `remove_repository_from_composite`
(lines 283-302): the index update followed by `S3Utils.remove_repository`,
which deletes every object under the key range of the child. -/
def remove_repository_from_composite_events (pfx : String) (a : Doc) (child : String)
    (ts : Option String) (now : String) : List S3Event :=
  remove_child_from_composite_artifacts_events pfx a child ts now
    ++ [S3Event.deleteTree (urljoin pfx child)]

/-- The store interactions of one `manage_snapshots` run
(ManageSnapshots.py lines 51-115): download the artifacts object, then one
`get_matching_s3_contents` listing per well-formed non-URL child.  The
deletion loop at lines 109-111 performs no store operation (the removal
call is commented out), and the mutated tree is never stored. -/
def manage_snapshots_events (pfx : String) (children : List (Option String)) : List S3Event :=
  S3Event.download (urljoin pfx "compositeArtifacts.xml")
    :: children.filterMap (fun c =>
      match c with
      | none => none
      | some loc =>
        if is_location_url loc then none
        else some (S3Event.listObjects (urljoin pfx loc)))

/-- A probe for concrete retention examples: three locally-managed children
with distinct last-modified times 30, 20, 10. -/
def exProbeC1 : String → Option Int :=
  fun l => if l = "a" then some 30 else if l = "b" then some 20
    else if l = "c" then some 10 else none

/-! ### Helper lemmas -/

/-- The remove-while-iterating loop of
`remove_child_from_composite_artifacts` never changes the number of
location-less entries, whatever the cursor state: its test rejects
`none` entries and skipped entries are kept. -/
theorem pyRemoveGo_count_none (loc : String) :
    ∀ (l : List (Option String)) (b : Bool),
      (pyRemoveGo (fun c => c == some loc) l b).count none = l.count none := by
  intro l
  induction l with
  | nil => intro b; cases b <;> simp [pyRemoveGo]
  | cons a rest ih =>
    intro b
    cases b with
    | true => simp [pyRemoveGo, List.count_cons, ih]
    | false =>
      by_cases h : a = some loc
      · subst h
        simp [pyRemoveGo, List.count_cons, ih]
      · have hb : ((a == some loc) : Bool) = false := beq_eq_false_iff_ne.mpr h
        simp [pyRemoveGo, hb, List.count_cons, ih]

/-- The remove-while-iterating loop leaves an all-mismatch segment intact
and continues on the remainder with a fresh cursor. -/
theorem pyRemoveGo_append_no_match (loc : String) :
    ∀ (l m : List (Option String)), (∀ c ∈ l, c ≠ some loc) →
      pyRemoveGo (fun c => c == some loc) (l ++ m) false
        = l ++ pyRemoveGo (fun c => c == some loc) m false := by
  intro l
  induction l with
  | nil => intro m _; simp
  | cons a rest ih =>
    intro m h
    have ha : ((a == some loc) : Bool) = false :=
      beq_eq_false_iff_ne.mpr (h a (List.mem_cons_self a rest))
    have hrest : ∀ c ∈ rest, c ≠ some loc := fun c hc => h c (List.mem_cons_of_mem a hc)
    simp [pyRemoveGo, ha, ih m hrest]

/-- The loop removes a trailing single match entirely. -/
theorem pyRemoveGo_singleton_match (loc : String) :
    pyRemoveGo (fun c => c == some loc) [some loc] false = [] := by
  simp [pyRemoveGo]

/-- The function `update_timestamp` only touches the timestamp properties. -/
theorem update_timestamp_children (d : Doc) (ts : Option String) (now : String) :
    (update_timestamp d ts now).children = d.children := rfl

/-- The function `update_timestamp` does not touch the `size` attribute. -/
theorem update_timestamp_childrenSize (d : Doc) (ts : Option String) (now : String) :
    (update_timestamp d ts now).childrenSize = d.childrenSize := rfl

/-- Folding `add_child` appends the fed locations in order and, provided the
starting document satisfies the size invariant, re-establishes it on the
final child count. -/
theorem foldl_add_child_spec :
    ∀ (l : List (Option String)) (c : Doc), c.childrenSize = toString c.children.length →
      (l.foldl (fun d loc => add_child d loc) c).children = c.children ++ l
        ∧ (l.foldl (fun d loc => add_child d loc) c).childrenSize
            = toString (c.children.length + l.length) := by
  intro l
  induction l with
  | nil => intro c hc; simpa using hc
  | cons x xs ih =>
    intro c hc
    have hsize : (add_child c x).childrenSize = toString (add_child c x).children.length := by
      simp [add_child]
    have h2 := ih (add_child c x) hsize
    constructor
    · rw [List.foldl_cons]
      rw [h2.1]
      simp [add_child]
    · rw [List.foldl_cons]
      rw [h2.2]
      have : (add_child c x).children.length + xs.length
          = c.children.length + (x :: xs).length := by
        simp [add_child]
        omega
      rw [this]

/-- Folding `add_child` never touches the timestamp properties. -/
theorem foldl_add_child_tsProps :
    ∀ (l : List (Option String)) (c : Doc),
      (l.foldl (fun d loc => add_child d loc) c).tsProps = c.tsProps := by
  intro l
  induction l with
  | nil => intro c; rfl
  | cons x xs ih => intro c; rw [List.foldl_cons, ih]; rfl

/-- Folding `update_timestamp` never touches the children or their `size`
attribute. -/
theorem foldl_update_children :
    ∀ (ps : List (Option String)) (c : Doc) (now : String),
      (ps.foldl (fun d p => update_timestamp d p now) c).children = c.children
        ∧ (ps.foldl (fun d p => update_timestamp d p now) c).childrenSize = c.childrenSize := by
  intro ps
  induction ps with
  | nil => intro c now; exact ⟨rfl, rfl⟩
  | cons p ps ih =>
    intro c now
    rw [List.foldl_cons]
    exact ih (update_timestamp c p now) now

/-- The content document built by the synch carries exactly the children of
the artifacts document, with a consistent `size` attribute. -/
theorem synch_children (a : Doc) (now : String) :
    (synch_compostite_artifacts_to_composite_content a now).children = a.children
      ∧ (synch_compostite_artifacts_to_composite_content a now).childrenSize
          = toString a.children.length := by
  unfold synch_compostite_artifacts_to_composite_content
  have h1 := foldl_add_child_spec a.children emptyCompositeContent (by rfl)
  have h2 := foldl_update_children (ensureTsProps a.tsProps)
    (a.children.foldl (fun c loc => add_child c loc) emptyCompositeContent) now
  constructor
  · rw [h2.1, h1.1]; simp [emptyCompositeContent]
  · rw [h2.2, h1.2]; simp [emptyCompositeContent]

/-- Inserting into the descending order yields a permutation of consing. -/
theorem insertDesc_perm (x : String × Int) :
    ∀ l : List (String × Int), (insertDesc x l).Perm (x :: l) := by
  intro l
  induction l with
  | nil => simp [insertDesc]
  | cons y ys ih =>
    unfold insertDesc
    by_cases h : x.2 < y.2
    · rw [if_pos h]
      exact (ih.cons y).trans (List.Perm.swap x y ys)
    · rw [if_neg h]

/-- The modelled sort is a permutation of its input. -/
theorem sortDesc_perm : ∀ l : List (String × Int), (sortDesc l).Perm l := by
  intro l
  induction l with
  | nil => simp [sortDesc]
  | cons a l ih =>
    show (insertDesc a (sortDesc l)).Perm (a :: l)
    exact (insertDesc_perm a (sortDesc l)).trans (ih.cons a)

/-- Insertion preserves the descending order by last-modified. -/
theorem insertDesc_pairwise (x : String × Int) :
    ∀ l : List (String × Int), l.Pairwise (fun p q => q.2 ≤ p.2) →
      (insertDesc x l).Pairwise (fun p q => q.2 ≤ p.2) := by
  intro l
  induction l with
  | nil => intro _; simp [insertDesc]
  | cons y ys ih =>
    intro h
    rw [List.pairwise_cons] at h
    obtain ⟨hy, hys⟩ := h
    unfold insertDesc
    by_cases hcmp : x.2 < y.2
    · rw [if_pos hcmp, List.pairwise_cons]
      refine ⟨?_, ih hys⟩
      intro z hz
      rcases List.mem_cons.mp ((insertDesc_perm x ys).mem_iff.mp hz) with rfl | hz2
      · exact le_of_lt hcmp
      · exact hy z hz2
    · rw [if_neg hcmp, List.pairwise_cons]
      refine ⟨?_, List.pairwise_cons.mpr ⟨hy, hys⟩⟩
      intro z hz
      rcases List.mem_cons.mp hz with rfl | hz2
      · exact le_of_not_lt hcmp
      · exact le_trans (hy z hz2) (le_of_not_lt hcmp)

/-- The modelled sort is descending by last-modified. -/
theorem sortDesc_pairwise :
    ∀ l : List (String × Int), (sortDesc l).Pairwise (fun p q => q.2 ≤ p.2) := by
  intro l
  induction l with
  | nil => simp [sortDesc]
  | cons a l ih =>
    show (insertDesc a (sortDesc l)).Pairwise (fun p q => q.2 ≤ p.2)
    exact insertDesc_pairwise a (sortDesc l) ih

/-- The `delete_keys` loop of the code agrees with the amended pseudocode: the
delete records of the amended classification are exactly the keys the code
appends, from any starting retained count. -/
theorem classify_eq_deleteOf_amended (m : Nat) (maxR : Option Nat) (ra : Option Int) :
    ∀ (ks : List (String × Int)) (cnt : Nat),
      classify (some m) maxR ra ks cnt = deleteOf (evaluateAmended m maxR ra ks cnt) := by
  intro ks
  induction ks with
  | nil => intro cnt; simp [classify, evaluateAmended, deleteOf]
  | cons k ks ih =>
    intro cnt
    by_cases hm : cnt < m
    · simp [classify, evaluateAmended, minRetainHit, hm, deleteOf, ih]
    · by_cases hx : maxRetainHit maxR cnt
      · simp [classify, evaluateAmended, minRetainHit, hm, hx, deleteOf, ih]
      · cases ra with
        | none => simp [classify, evaluateAmended, minRetainHit, hm, hx, deleteOf, ih]
        | some cutoff =>
          by_cases hage : k.2 < cutoff
          · simp [classify, evaluateAmended, minRetainHit, hm, hx, hage, deleteOf, ih]
          · simp [classify, evaluateAmended, minRetainHit, hm, hx, hage, deleteOf, ih]

/-- The amended classification classifies every input child exactly once,
in order. -/
theorem evaluateAmended_map_fst (m : Nat) (maxR : Option Nat) (ra : Option Int) :
    ∀ (ks : List (String × Int)) (cnt : Nat),
      (evaluateAmended m maxR ra ks cnt).map Prod.fst = ks := by
  intro ks
  induction ks with
  | nil => intro cnt; simp [evaluateAmended]
  | cons k ks ih =>
    intro cnt
    by_cases hm : cnt < m
    · simp [evaluateAmended, hm, ih]
    · by_cases hx : maxRetainHit maxR cnt
      · simp [evaluateAmended, hm, hx, ih]
      · cases ra with
        | none => simp [evaluateAmended, hm, hx, ih]
        | some cutoff =>
          by_cases hage : k.2 < cutoff
          · simp [evaluateAmended, hm, hx, hage, ih]
          · simp [evaluateAmended, hm, hx, hage, ih]

/-- Membership in a Python-dict insertion: the new pair or an old pair. -/
theorem mem_dictInsert (k : String) (v : Int) (l : List (String × Int)) :
    ∀ kv ∈ dictInsert k v l, kv = (k, v) ∨ kv ∈ l := by
  intro kv hkv
  unfold dictInsert at hkv
  by_cases h : l.any (fun p => p.1 == k)
  · rw [if_pos h] at hkv
    rcases List.mem_map.mp hkv with ⟨p, hp, he⟩
    by_cases hpk : p.1 == k
    · left; rw [← he]; simp [hpk]
    · right; rw [← he]; simpa [hpk] using hp
  · rw [if_neg h] at hkv
    rcases List.mem_append.mp hkv with hl | hr
    · right; exact hl
    · left; simpa using hr

/-- Every entry of the `child_keys` dict records the answer of the probe for its
location: orphaned children (probe `none`) never enter the mapping. -/
theorem childKeysOf_probe (children : List (Option String)) (probe : String → Option Int) :
    ∀ kv ∈ childKeysOf children probe, probe kv.1 = some kv.2 := by
  unfold childKeysOf
  suffices h : ∀ (cs : List (Option String)) (acc : List (String × Int)),
      (∀ kv ∈ acc, probe kv.1 = some kv.2) →
      ∀ kv ∈ cs.foldl (fun acc c =>
        match c with
        | none => acc
        | some loc =>
          if is_location_url loc then acc
          else
            match probe loc with
            | some lm => dictInsert loc lm acc
            | none => acc) acc, probe kv.1 = some kv.2 by
    exact h children [] (by intro kv hkv; simp at hkv)
  intro cs
  induction cs with
  | nil => intro acc hacc kv hkv; exact hacc kv hkv
  | cons c rest ih =>
    intro acc hacc kv hkv
    rw [List.foldl_cons] at hkv
    cases c with
    | none => exact ih acc hacc kv hkv
    | some loc =>
      by_cases hurl : is_location_url loc
      · simp only [hurl, if_true] at hkv
        exact ih acc hacc kv hkv
      · simp only [hurl, if_false] at hkv
        cases hp : probe loc with
        | none =>
          rw [hp] at hkv
          exact ih acc hacc kv hkv
        | some lm =>
          rw [hp] at hkv
          refine ih (dictInsert loc lm acc) ?_ kv hkv
          intro kv2 hkv2
          rcases mem_dictInsert loc lm acc kv2 hkv2 with rfl | hold
          · exact hp
          · exact hacc kv2 hold

/-- Every entry of the filtered mapping records the answer of the probe for its
location. -/
theorem filteredKeysOf_probe (children : List (Option String)) (probe : String → Option Int)
    (filt : Option (String → Bool)) :
    ∀ kv ∈ filteredKeysOf children probe filt, probe kv.1 = some kv.2 := by
  intro kv hkv
  cases filt with
  | none => exact childKeysOf_probe children probe kv hkv
  | some p =>
    exact childKeysOf_probe children probe kv (List.mem_filter.mp hkv).1

/-! ### Claim theorems -/

/-- C1 counterexample: with policy `minRetain = 1`, `maxRetain = 2` and
`maxAgeDays` unset, the code deletes nothing — the child past the floor is
retained without being counted, so the cap is never reached — whereas the
pseudocode of the claim counts it and then deletes the third child.  Refutes
the claim that the loop classifies exactly as the pseudocode in the spec and that
cap-eligible children are "counted toward the cap" when `maxAgeDays` is
unset. -/
theorem c1_counterexample :
    (manage_snapshots [some "a", some "b", some "c"] exProbeC1 none
        (some 1) (some 2) none 100).deleteKeys = []
      ∧ deleteOf (evaluatePseudocode 1 (some 2) none
          (sortDesc (filteredKeysOf [some "a", some "b", some "c"] exProbeC1 none)) 0)
          = [("c", 10)] := by
  constructor
  · rfl
  · rfl

/-- C1 (amended): `manage_snapshots` evaluates the retention policy over
the children sorted stably descending by last-modified, and classifies them
as the pseudocode of the claim does except in the `maxAgeDays`-unset corner:
there a child past the floor and under the cap is retained WITHOUT
incrementing the retained count.  The sorted list is a permutation of the
filtered mapping, descending by last-modified; the amended classification
touches each sorted child exactly once, and the `delete_keys` of the code are
exactly its delete records. -/
theorem c1_retention_classification (children : List (Option String))
    (probe : String → Option Int) (filt : Option (String → Bool))
    (minR : Nat) (maxR : Option Nat) (ageDays : Option Int) (now : Int) :
    (manage_snapshots children probe filt (some minR) maxR ageDays now).deleteKeys
        = deleteOf (evaluateAmended minR maxR (retainAfterOf now ageDays)
            (sortDesc (filteredKeysOf children probe filt)) 0)
      ∧ (evaluateAmended minR maxR (retainAfterOf now ageDays)
            (sortDesc (filteredKeysOf children probe filt)) 0).map Prod.fst
          = sortDesc (filteredKeysOf children probe filt)
      ∧ (sortDesc (filteredKeysOf children probe filt)).Perm
          (filteredKeysOf children probe filt)
      ∧ (sortDesc (filteredKeysOf children probe filt)).Pairwise
          (fun p q => q.2 ≤ p.2) := by
  refine ⟨?_, ?_, ?_, ?_⟩
  · exact classify_eq_deleteOf_amended minR maxR (retainAfterOf now ageDays)
      (sortDesc (filteredKeysOf children probe filt)) 0
  · exact evaluateAmended_map_fst minR maxR (retainAfterOf now ageDays)
      (sortDesc (filteredKeysOf children probe filt)) 0
  · exact sortDesc_perm (filteredKeysOf children probe filt)
  · exact sortDesc_pairwise (filteredKeysOf children probe filt)

/-- C1 witness: the amended classification at a concrete policy and child
set. -/
theorem c1_retention_classification_witness :
    (manage_snapshots [some "a", some "b", some "c"] exProbeC1 none
        (some 1) (some 2) none 100).deleteKeys
      = deleteOf (evaluateAmended 1 (some 2) (retainAfterOf 100 none)
          (sortDesc (filteredKeysOf [some "a", some "b", some "c"] exProbeC1 none)) 0) :=
  (c1_retention_classification [some "a", some "b", some "c"] exProbeC1 none
    1 (some 2) none 100).1

/-- C2: evaluating `remove_child_from_composite_artifacts` at the failing
inputs.  With two adjacent children at the target location, the
remove-while-iterating loop removes the first and skips over the second, so
one target entry survives in the persisted document; and a location-less
entry is never removed, because the test of the loop requires the `location`
attribute to be present.  Both contradict the claim. -/
theorem c2_failing_eval :
    (remove_child_from_composite_artifacts
        { name := "n", tsProps := [some "1"], children := [some "x", some "x"],
          childrenSize := "2" } "x" none "9").1.children = [some "x"]
      ∧ (remove_child_from_composite_artifacts
          { name := "n", tsProps := [some "1"], children := [none],
            childrenSize := "1" } "x" none "9").1.children = [none] := by
  constructor
  · rfl
  · rfl

/-- C3 counterexample: a pre-existing location-less entry survives both
`addChild` and `removeChild` into the persisted artifacts document,
refuting the claim that both operations drop every malformed entry before
persisting. -/
theorem c3_counterexample :
    ((add_child_to_composite_artifacts
        { name := "n", tsProps := [some "1"], children := [none], childrenSize := "1" }
        "x" none "9").1.children.contains none = true)
      ∧ ((remove_child_from_composite_artifacts
          { name := "n", tsProps := [some "1"], children := [none], childrenSize := "1" }
          "x" none "9").1.children.contains none = true) := by
  constructor
  · rfl
  · rfl

/-- C3 (amended): malformed entries are preserved, not purged — both
persisted operations keep every location-less child entry: the number of
`none` entries in the persisted artifacts document equals that of the
loaded document, for `addChild` and for `removeChild` alike. -/
theorem c3_malformed_preserved (a : Doc) (loc : String) (ts : Option String) (now : String) :
    ((add_child_to_composite_artifacts a loc ts now).1.children.count none
        = a.children.count none)
      ∧ ((remove_child_from_composite_artifacts a loc ts now).1.children.count none
          = a.children.count none) := by
  constructor
  · show ((update_timestamp _ ts now).children.count none = a.children.count none)
    rw [update_timestamp_children]
    simp [add_child, List.count_append]
  · show ((update_timestamp _ ts now).children.count none = a.children.count none)
    rw [update_timestamp_children]
    exact pyRemoveGo_count_none loc a.children false

/-- C4 counterexample: a child whose location classifies as a URL is
skipped before the existence probe runs, so it stays in the index even
though no marker object exists anywhere for it (the probe answers `none`
everywhere) — refuting the claim for URL-classified children. -/
theorem c4_counterexample :
    (manage_snapshots [some "http://example.com/a"] (fun _ => none) none
        (some 3) (some 20) (some 30) 100).children1 = [some "http://example.com/a"]
      ∧ (fun (_ : String) => (none : Option Int)) "http://example.com/a" = none := by
  constructor
  · rfl
  · rfl

/-- C4 (amended): every child entry whose location is NOT classified as a
URL and has no matching existence-marker object is removed from the index
during evaluation, independent of the retention-policy parameters and of
the regex filter (which only narrows the mapping afterwards); location-less
entries are removed too, and orphaned children never enter the
last-modified mapping, filtered or not. -/
theorem c4_orphan_cleanup (children : List (Option String)) (probe : String → Option Int)
    (filt : Option (String → Bool)) (minR maxR : Option Nat)
    (ageDays : Option Int) (now : Int) :
    (∀ loc : String,
        some loc ∈ (manage_snapshots children probe filt minR maxR ageDays now).children1 →
        is_location_url loc = false → (probe loc).isSome = true)
      ∧ (manage_snapshots children probe filt minR maxR ageDays now).children1.all
          (fun c => c.isSome) = true
      ∧ (∀ kv ∈ childKeysOf children probe, probe kv.1 = some kv.2)
      ∧ (∀ kv ∈ (manage_snapshots children probe filt minR maxR ageDays now).childKeys,
          probe kv.1 = some kv.2) := by
  refine ⟨?_, ?_, ?_, ?_⟩
  · intro loc hmem hurl
    have hk : keepChild probe (some loc) = true := (List.mem_filter.mp hmem).2
    simpa [keepChild, hurl] using hk
  · rw [List.all_eq_true]
    intro c hc
    have hk : keepChild probe c = true := (List.mem_filter.mp hc).2
    cases c with
    | none => simp [keepChild] at hk
    | some loc => rfl
  · exact childKeysOf_probe children probe
  · exact filteredKeysOf_probe children probe filt

/-- C4 witness: a well-formed local child found by the probe is kept, and
the probe-consistency part of the theorem holds for it concretely. -/
theorem c4_orphan_cleanup_witness :
    ((fun (_ : String) => (some (5 : Int))) "a").isSome = true :=
  (c4_orphan_cleanup [some "a"] (fun _ => some 5) none (some 3) (some 20) (some 30) 100).1
    "a" (by decide) (by decide)

/-- When the artifacts document has a single timestamp property, the synch
copies its value verbatim into the (single) timestamp property of the
content document. -/
theorem synch_tsProps_single (r : Doc) (now v : String) (h : r.tsProps = [some v]) :
    (synch_compostite_artifacts_to_composite_content r now).tsProps = [some v] := by
  unfold synch_compostite_artifacts_to_composite_content
  have hc1 : (r.children.foldl (fun c loc => add_child c loc) emptyCompositeContent).tsProps
      = [some "0000000000000"] := by
    rw [foldl_add_child_tsProps]
    rfl
  rw [h]
  simp [ensureTsProps, update_timestamp, tsValOf, hc1]

/-- C5: after `addChild` and after `removeChild`, the persisted content
(metadata) document carries exactly the children list of the persisted
artifacts document, and — for a schema-conforming input with at most one
`p2.timestamp` property — exactly its timestamp properties: the metadata
document is a pure projection of the artifacts document. -/
theorem c5_metadata_projection (a : Doc) (loc : String) (ts : Option String) (now : String) :
    ((add_child_to_composite_artifacts a loc ts now).2.children
        = (add_child_to_composite_artifacts a loc ts now).1.children)
      ∧ ((remove_child_from_composite_artifacts a loc ts now).2.children
          = (remove_child_from_composite_artifacts a loc ts now).1.children)
      ∧ (a.tsProps.length ≤ 1 →
          ((add_child_to_composite_artifacts a loc ts now).2.tsProps
              = (add_child_to_composite_artifacts a loc ts now).1.tsProps)
            ∧ ((remove_child_from_composite_artifacts a loc ts now).2.tsProps
                = (remove_child_from_composite_artifacts a loc ts now).1.tsProps)) := by
  refine ⟨?_, ?_, ?_⟩
  · exact (synch_children _ now).1
  · exact (synch_children _ now).1
  · intro hlen
    have hupd : ∀ d : Doc, d.tsProps = a.tsProps →
        (update_timestamp d ts now).tsProps = [some (tsValOf ts now)] := by
      intro d hd
      unfold update_timestamp
      rw [hd]
      match h : a.tsProps with
      | [] => rfl
      | [x] => rfl
      | x :: y :: t => rw [h] at hlen; simp at hlen
    constructor
    · have h1 : (add_child_to_composite_artifacts a loc ts now).1.tsProps
          = [some (tsValOf ts now)] := hupd _ rfl
      rw [h1]
      exact synch_tsProps_single (add_child_to_composite_artifacts a loc ts now).1 now
        (tsValOf ts now) h1
    · have h1 : (remove_child_from_composite_artifacts a loc ts now).1.tsProps
          = [some (tsValOf ts now)] := hupd _ rfl
      rw [h1]
      exact synch_tsProps_single (remove_child_from_composite_artifacts a loc ts now).1 now
        (tsValOf ts now) h1

/-- C5 witness: the projection at a concrete document. -/
theorem c5_metadata_projection_witness :
    (add_child_to_composite_artifacts
        { name := "n", tsProps := [some "3"], children := [some "y"], childrenSize := "1" }
        "x" none "7").2.tsProps
      = (add_child_to_composite_artifacts
          { name := "n", tsProps := [some "3"], children := [some "y"], childrenSize := "1" }
          "x" none "7").1.tsProps :=
  ((c5_metadata_projection
      { name := "n", tsProps := [some "3"], children := [some "y"], childrenSize := "1" }
      "x" none "7").2.2 (by decide)).1

/-- Both persisted documents of any single mutation satisfy the size
invariant, whatever the loaded document. -/
theorem sizeOk_applyMutOp (a : Doc) (op : MutOp) :
    sizeOk (applyMutOp a op).1 = true ∧ sizeOk (applyMutOp a op).2 = true := by
  have hsynch : ∀ (r : Doc) (now : String),
      sizeOk (synch_compostite_artifacts_to_composite_content r now) = true := by
    intro r now
    unfold sizeOk
    rw [(synch_children r now).1, (synch_children r now).2]
    exact beq_self_eq_true _
  cases op with
  | add loc ts now =>
    constructor
    · show sizeOk (update_timestamp _ ts now) = true
      unfold sizeOk
      rw [update_timestamp_children, update_timestamp_childrenSize]
      exact beq_self_eq_true _
    · exact hsynch _ now
  | remove loc ts now =>
    constructor
    · show sizeOk (update_timestamp _ ts now) = true
      unfold sizeOk
      rw [update_timestamp_children, update_timestamp_childrenSize]
      exact beq_self_eq_true _
    · exact hsynch _ now

/-- C6: for any starting document and any sequence of add/remove
operations, after each operation the `size` attribute of the `children`
element of the persisted artifacts document — and of the persisted content
document — is the decimal string of its number of child entries. -/
theorem c6_size_invariant (a : Doc) (ops : List MutOp) (i : Nat) (h : i < ops.length) :
    sizeOk (applyMutOp (runMutOps a (ops.take i)) (ops.get ⟨i, h⟩)).1 = true
      ∧ sizeOk (applyMutOp (runMutOps a (ops.take i)) (ops.get ⟨i, h⟩)).2 = true :=
  sizeOk_applyMutOp (runMutOps a (ops.take i)) (ops.get ⟨i, h⟩)

/-- C6 witness: the invariant after the second operation of a concrete
sequence on a document whose stored `size` attribute is even wrong. -/
theorem c6_size_invariant_witness :
    sizeOk (applyMutOp (runMutOps
        { name := "n", tsProps := [some "1"], children := [some "x"], childrenSize := "7" }
        ([MutOp.add "y" none "2", MutOp.remove "x" none "3"].take 1))
        ([MutOp.add "y" none "2", MutOp.remove "x" none "3"].get ⟨1, by decide⟩)).1 = true :=
  (c6_size_invariant
    { name := "n", tsProps := [some "1"], children := [some "x"], childrenSize := "7" }
    [MutOp.add "y" none "2", MutOp.remove "x" none "3"] 1 (by decide)).1

/-- C7 counterexample: on a document already containing a child at the
target location, `addChild "x"` then `removeChild "x"` does not restore the
original child set — the pre-existing `x` is removed as well (the final
list is `[y]`, losing `x`), refuting the round-trip claim as stated for
every starting document. -/
theorem c7_counterexample :
    (remove_child_from_composite_artifacts
        (add_child_to_composite_artifacts
          { name := "n", tsProps := [some "1"], children := [some "x", some "y"],
            childrenSize := "2" } "x" none "9").1
        "x" none "9").1.children = [some "y"]
      ∧ ([some "x", some "y"] : List (Option String)).contains (some "x") = true
      ∧ ([some "y"] : List (Option String)).contains (some "x") = false := by
  refine ⟨rfl, rfl, rfl⟩

/-- C7 (amended): provided the starting document has no child at location
`x`, `addChild(x)` followed by `removeChild(x)` restores exactly the
original children list — malformed (location-less) entries included: they
are preserved by both operations, not cleaned up. -/
theorem c7_add_remove_roundtrip (a : Doc) (x : String) (ts ts2 : Option String)
    (now now2 : String) (h : some x ∉ a.children) :
    (remove_child_from_composite_artifacts
        (add_child_to_composite_artifacts a x ts now).1 x ts2 now2).1.children
      = a.children := by
  have hadd : (add_child_to_composite_artifacts a x ts now).1.children
      = a.children ++ [some x] := rfl
  show pyRemoveIter (fun c => c == some x)
      (add_child_to_composite_artifacts a x ts now).1.children = a.children
  rw [hadd]
  unfold pyRemoveIter
  rw [pyRemoveGo_append_no_match x a.children [some x]
    (fun c hc => fun he => h (he ▸ hc))]
  rw [pyRemoveGo_singleton_match]
  simp

/-- C7 witness: the round trip at a concrete document containing a
malformed entry. -/
theorem c7_add_remove_roundtrip_witness :
    (remove_child_from_composite_artifacts
        (add_child_to_composite_artifacts
          { name := "n", tsProps := [some "1"], children := [none, some "y"],
            childrenSize := "2" } "x" none "8").1
        "x" none "9").1.children = [none, some "y"] :=
  c7_add_remove_roundtrip
    { name := "n", tsProps := [some "1"], children := [none, some "y"], childrenSize := "2" }
    "x" none none "8" "9" (by decide)

/-- C8: loading the artifacts document bootstraps the canonical empty
document — name `Eclipse Project Test Site`, a single timestamp property
whose value is numerically zero, zero children — exactly when the download
fails with HTTP status 404; a successful download is passed through, and
any other client error is re-raised to the caller. -/
theorem c8_bootstrap_on_absence :
    (get_composite_artifacts_xml (Except.error { httpStatusCode := some 404 })
        = Except.ok emptyCompositeArtifacts)
      ∧ emptyCompositeArtifacts.name = "Eclipse Project Test Site"
      ∧ emptyCompositeArtifacts.children = []
      ∧ emptyCompositeArtifacts.tsProps = [some "0000000000000"]
      ∧ "0000000000000".toList.all (fun c => c == '0') = true
      ∧ (∀ e : ClientErr, e.httpStatusCode ≠ some 404 →
          get_composite_artifacts_xml (Except.error e) = Except.error e)
      ∧ (∀ d : Doc, get_composite_artifacts_xml (Except.ok d) = Except.ok d) := by
  refine ⟨rfl, rfl, rfl, rfl, by decide, ?_, fun d => rfl⟩
  intro e he
  show (if e.httpStatusCode = some 404 then Except.ok emptyCompositeArtifacts
      else Except.error e) = Except.error e
  rw [if_neg he]

/-- C8 witness: a 500 client error propagates unchanged. -/
theorem c8_bootstrap_on_absence_witness :
    get_composite_artifacts_xml (Except.error { httpStatusCode := some 500 })
      = Except.error { httpStatusCode := some 500 } :=
  c8_bootstrap_on_absence.2.2.2.2.2.1 { httpStatusCode := some 500 } (by decide)

/-- A trace of read-only events leaves any object store unchanged. -/
theorem applyEvents_of_readonly :
    ∀ (es : List S3Event), es.all (fun e => !isWriteEvent e) = true →
      ∀ σ : String → Option Doc, applyEvents σ es = σ := by
  intro es
  induction es with
  | nil => intro _ σ; rfl
  | cons e rest ih =>
    intro h σ
    rw [List.all_cons, Bool.and_eq_true] at h
    have he : applyEvent σ e = σ := by
      cases e with
      | download k => rfl
      | listObjects p => rfl
      | upload k d => simp [isWriteEvent] at h
      | deleteTree p => simp [isWriteEvent] at h
    show applyEvents (applyEvent σ e) rest = σ
    rw [he]
    exact ih h.2 σ

/-- C9: a `manage_snapshots` evaluation performs only read events against
the object store — one download of the index and one listing per probed
child — so the store is unchanged when evaluation completes; deletion is a
distinct operation (`remove_repository_from_composite`) whose trace does
contain write events, and `manage_snapshots` never emits them (its removal
call is commented out and the mutated tree is never stored). -/
theorem c9_evaluation_read_only (pfx : String) (children : List (Option String)) :
    (manage_snapshots_events pfx children).all (fun e => !isWriteEvent e) = true
      ∧ (∀ σ : String → Option Doc, applyEvents σ (manage_snapshots_events pfx children) = σ)
      ∧ (∀ (pfx2 : String) (a : Doc) (child : String) (ts : Option String) (now : String),
          (remove_repository_from_composite_events pfx2 a child ts now).any isWriteEvent
            = true) := by
  have hall : (manage_snapshots_events pfx children).all (fun e => !isWriteEvent e) = true := by
    unfold manage_snapshots_events
    rw [List.all_cons, Bool.and_eq_true]
    refine ⟨rfl, ?_⟩
    rw [List.all_eq_true]
    intro e he
    rcases List.mem_filterMap.mp he with ⟨c, _, hc⟩
    cases c with
    | none => simp at hc
    | some loc =>
      by_cases hurl : is_location_url loc
      · simp [hurl] at hc
      · simp [hurl] at hc
        rw [← hc]
        rfl
  refine ⟨hall, fun σ => applyEvents_of_readonly _ hall σ, ?_⟩
  intro pfx2 a child ts now
  rfl

/-- C10: `is_location_url` accepts exactly the strings that `urlparse`
splits into an `http` or `https` scheme, a non-empty network location and a
non-empty path; in particular `http://example.com` (no path) is not a URL,
and retention evaluation therefore treats such a child as locally managed —
probing it and pruning it when no marker object exists. -/
theorem c10_is_location_url_iff :
    (∀ s : String, is_location_url s = true ↔
        ∃ r : ParseResult, urlparseModel s = some r
          ∧ (r.scheme = "http" ∨ r.scheme = "https") ∧ r.netloc ≠ "" ∧ r.path ≠ "")
      ∧ is_location_url "http://example.com" = false
      ∧ (manage_snapshots [some "http://example.com"] (fun _ => none) none
          (some 3) (some 20) (some 30) 100).children1 = [] := by
  refine ⟨?_, rfl, rfl⟩
  intro s
  cases h : urlparseModel s with
  | none => simp [is_location_url, h]
  | some r =>
    simp only [is_location_url, h]
    constructor
    · intro hb
      rw [Bool.and_eq_true, Bool.and_eq_true, Bool.or_eq_true] at hb
      refine ⟨r, rfl, ?_, ?_, ?_⟩
      · rcases hb.1.1 with h1 | h1
        · exact Or.inl (by simpa using h1)
        · exact Or.inr (by simpa using h1)
      · simpa using hb.1.2
      · simpa using hb.2
    · rintro ⟨r2, hr2, hs, hn, hp⟩
      have : r2 = r := (Option.some.inj hr2).symm
      subst this
      rw [Bool.and_eq_true, Bool.and_eq_true, Bool.or_eq_true]
      refine ⟨⟨?_, by simpa using hn⟩, by simpa using hp⟩
      rcases hs with h1 | h1
      · exact Or.inl (by simpa using h1)
      · exact Or.inr (by simpa using h1)

/-- C10 witness: the characterisation instantiated at a concrete URL with a
path. -/
theorem c10_is_location_url_iff_witness :
    ∃ r : ParseResult, urlparseModel "http://example.com/a" = some r
      ∧ (r.scheme = "http" ∨ r.scheme = "https") ∧ r.netloc ≠ "" ∧ r.path ≠ "" :=
  (c10_is_location_url_iff.1 "http://example.com/a").mp (by decide)

end S3Tools
